import Mathlib

/-!
SVase: fingerprints, source-location anchors and the command line driver

A shallow embedding of `src/include/svase/util.h` and `src/src/driver.cpp`.

* Symbols, scopes and syntax nodes of the front end are records holding exactly the
  attributes the embedded functions read (`name`, `isLocalParam()`, the printed canonical
  type, the printed value, `kind`, `location`, `sourceRange().start()`, `toString()`).
* `size_t` values are natural numbers reduced modulo `2 ^ (8 * sizeof(size_t))`;
  `sizeof(size_t)` is a parameter of the functions that depend on it.
* `driverMain` is a function from the answers of the collaborators it calls (command line
  parser, front end, rewrite passes, file system) to the way the call ends and the
  sequence of effects it performed.
-/

namespace svase

/-! ## Fingerprint (`genParamString`, `areParamEqual`) -/

/-- A `TypeParameterSymbol`: `name`, `isLocalParam()` and the text the `TypePrinter`
(with `skipScopedTypeNames` and `fullEnumType` set) produces for the canonical type of the
declared type of its alias. -/
structure TypeParameterSymbol where
  name : String
  isLocalParam : Bool
  printedType : String
  deriving DecidableEq, Repr

/-- A `ParameterSymbol`: `name`, `isLocalParam()` and the text of
`getValue().toString(SVInt::MAX_BITS, true)`. -/
structure ParameterSymbol where
  name : String
  isLocalParam : Bool
  printedValue : String
  deriving DecidableEq, Repr

/-- A member of an instance body. Only the two kinds of parameter symbols are read by
`genParamString`; every other member is `other`. -/
inductive BodyMember where
  | typeParameter (p : TypeParameterSymbol)
  | parameter (p : ParameterSymbol)
  | other (name : String)
  deriving DecidableEq, Repr

/-- An `InstanceSymbol`, reduced to the ordered members of its body. -/
structure InstanceSymbol where
  body : List BodyMember
  deriving DecidableEq, Repr

/-- The range `sym->body.membersOfType<TypeParameterSymbol>()`: the type parameters of the
body, in member order. -/
def typeParameterMembers (sym : InstanceSymbol) : List TypeParameterSymbol :=
  sym.body.filterMap fun m =>
    match m with
    | .typeParameter p => some p
    | _ => none

/-- The range `sym->body.membersOfType<ParameterSymbol>()`: the value parameters of the
body, in member order. -/
def parameterMembers (sym : InstanceSymbol) : List ParameterSymbol :=
  sym.body.filterMap fun m =>
    match m with
    | .parameter p => some p
    | _ => none

/-- The text `fmt::format("{}:{},", name, value)`. -/
def formatParam (name value : String) : String :=
  name ++ ":" ++ value ++ ","

/-- The first loop of `genParamString`: appends one entry per non-local type parameter. -/
def appendTypeParams (hashString : String) : List TypeParameterSymbol → String
  | [] => hashString
  | param :: rest =>
    if !param.isLocalParam then
      appendTypeParams (hashString ++ formatParam param.name param.printedType) rest
    else
      appendTypeParams hashString rest

/-- The second loop of `genParamString`: appends one entry per non-local value parameter. -/
def appendValueParams (hashString : String) : List ParameterSymbol → String
  | [] => hashString
  | param :: rest =>
    if !param.isLocalParam then
      appendValueParams (hashString ++ formatParam param.name param.printedValue) rest
    else
      appendValueParams hashString rest

/-- The function `genParamString` of `util.h`. -/
def genParamString (sym : InstanceSymbol) : String :=
  appendValueParams (appendTypeParams "" (typeParameterMembers sym)) (parameterMembers sym)

/-- The function `areParamEqual` of `util.h`. -/
def areParamEqual (a b : InstanceSymbol) : Bool :=
  genParamString a == genParamString b

/-- The (name, printed canonical type) pairs of the non-local type parameters of an
instance, in member order. -/
def nonLocalTypeParams (sym : InstanceSymbol) : List (String × String) :=
  ((typeParameterMembers sym).filter fun p => !p.isLocalParam).map
    fun p => (p.name, p.printedType)

/-- The (name, printed value) pairs of the non-local value parameters of an instance, in
member order. -/
def nonLocalValueParams (sym : InstanceSymbol) : List (String × String) :=
  ((parameterMembers sym).filter fun p => !p.isLocalParam).map
    fun p => (p.name, p.printedValue)

/-- The non-local parameterization of an instance: the pairs of its non-local type
parameters followed by the pairs of its non-local value parameters. -/
def nonLocalParams (sym : InstanceSymbol) : List (String × String) :=
  nonLocalTypeParams sym ++ nonLocalValueParams sym

/-- Concatenation of the entries `name:value,` of a list of pairs. -/
def concatParams : List (String × String) → String
  | [] => ""
  | (n, v) :: rest => formatParam n v ++ concatParams rest

/-! ## Source-location anchors (`getSourceLocIdx`, `synToSym`, `matchInstGenBlock`) -/

/-- A `SourceLocation`: the id of its buffer and the byte offset in that buffer. -/
structure SourceLocation where
  bufferId : Nat
  offset : Nat
  deriving DecidableEq, Repr

/-- The constant `size_half_bits` of `getSourceLocIdx`, for `sizeof(size_t) = szt`. -/
def size_half_bits (szt : Nat) : Nat := szt * 4

/-- The constant `size_hash_sup` of `getSourceLocIdx`: `size_t(1) << size_half_bits`. -/
def size_hash_sup (szt : Nat) : Nat := (1 <<< size_half_bits szt) % 2 ^ (8 * szt)

/-- The function `getSourceLocIdx` of `util.h` as compiled with the assertions off:
`(bufId << size_half_bits) | bufOffs` in `size_t` arithmetic. The two assertions are the
hypotheses of the theorems about it. -/
def getSourceLocIdx (szt : Nat) (loc : SourceLocation) : Nat :=
  (((loc.bufferId % 2 ^ (8 * szt)) <<< size_half_bits szt) % 2 ^ (8 * szt))
    ||| (loc.offset % 2 ^ (8 * szt))

/-- The two assertions of `getSourceLocIdx`. -/
def sourceLocAsserts (szt : Nat) (loc : SourceLocation) : Prop :=
  loc.bufferId < size_hash_sup szt ∧ loc.offset < size_hash_sup szt

instance (szt : Nat) (loc : SourceLocation) : Decidable (sourceLocAsserts szt loc) := by
  unfold sourceLocAsserts; infer_instance

/-- The kinds of symbol a scope can hold (`SymbolKind`), as far as the embedded code
distinguishes them. -/
inductive SymbolKind where
  | GenerateBlock
  | GenerateBlockArray
  | Instance
  | Parameter
  | TypeParameter
  | Unknown
  deriving DecidableEq, Repr

/-- A `Symbol`: its kind, its name and its `location`. -/
structure Symbol where
  kind : SymbolKind
  name : String
  location : SourceLocation
  deriving DecidableEq, Repr

/-- A `Scope`: its members in order. -/
structure Scope where
  members : List Symbol
  deriving DecidableEq, Repr

/-- The kinds of syntax node `driverMain` tells apart (`SyntaxKind`). -/
inductive SyntaxKind where
  | ModuleDeclaration
  | PackageDeclaration
  | InterfaceDeclaration
  | ClassDeclaration
  | ProgramDeclaration
  | GenerateBlock
  | Unknown
  deriving DecidableEq, Repr

/-- A `SyntaxNode`: its `kind`, the start of its `sourceRange()` and its `toString()`. -/
structure SyntaxNode where
  kind : SyntaxKind
  start : SourceLocation
  text : String
  deriving DecidableEq, Repr

/-- The function `getSynSourceLocIdx` of `util.h`. -/
def getSynSourceLocIdx (szt : Nat) (syn : SyntaxNode) : Nat :=
  getSourceLocIdx szt syn.start

/-- The function `getSymSourceLocIdx` of `util.h`. -/
def getSymSourceLocIdx (szt : Nat) (sym : Symbol) : Nat :=
  getSourceLocIdx szt sym.location

/-- The range `scope.membersOfType<TSym>()`: the members for which `TSym::isKind` holds, in
member order. -/
def membersOfType (isKind : SymbolKind → Bool) (scope : Scope) : List Symbol :=
  scope.members.filter fun m => isKind m.kind

/-- The loop of `synToSym`: the first symbol of the range whose index equals the index of
the syntax node, `none` for `nullptr`. -/
def synToSymLoop (szt : Nat) (syn : SyntaxNode) : List Symbol → Option Symbol
  | [] => none
  | memSym :: rest =>
    if getSymSourceLocIdx szt memSym = getSynSourceLocIdx szt syn then some memSym
    else synToSymLoop szt syn rest

/-- The function template `synToSym<TSym>` of `util.h`; `TSym` is given by its `isKind`. -/
def synToSym (szt : Nat) (isKind : SymbolKind → Bool) (syn : SyntaxNode) (scope : Scope) :
    Option Symbol :=
  synToSymLoop szt syn (membersOfType isKind scope)

/-- The predicate `GenerateBlockSymbol::isKind`. -/
def GenerateBlockSymbol.isKind (k : SymbolKind) : Bool :=
  k = SymbolKind.GenerateBlock

/-- The function `matchInstGenBlock` of `util.h`; a null `condBlkSyn` is `none`. -/
def matchInstGenBlock (szt : Nat) (condBlkSyn : Option SyntaxNode) (scope : Scope) :
    Option Symbol :=
  match condBlkSyn with
  | some syn => synToSym szt GenerateBlockSymbol.isKind syn scope
  | none => none

/-- A syntax node together with the epoch (parse/resolve cycle) that produced it. The
epoch is not part of a `SyntaxNode` in the code; the tag records where the value came
from. -/
structure EpochSyntax where
  epoch : Nat
  syn : SyntaxNode
  deriving DecidableEq, Repr

/-- A scope together with the epoch (parse/resolve cycle) whose resolution produced its
symbols. The epoch is not part of a `Scope` in the code. -/
structure EpochScope where
  epoch : Nat
  scope : Scope
  deriving DecidableEq, Repr

/-- The call `synToSym<TSym>(syn, scope)` on a node and a scope of given epochs: the
function receives the node and the scope only. -/
def anchorLookup (szt : Nat) (isKind : SymbolKind → Bool) (n : EpochSyntax)
    (s : EpochScope) : Option Symbol :=
  synToSym szt isKind n.syn s.scope

/-- The call `matchInstGenBlock(condBlkSyn, scope)` on a non-null node and a scope of
given epochs. -/
def anchorMatchGenBlock (szt : Nat) (n : EpochSyntax) (s : EpochScope) : Option Symbol :=
  matchInstGenBlock szt (some n.syn) s.scope

/-! ## The command line driver (`driverMain`, `writeToFile`) -/

/-- The rewrite passes `driverMain` constructs and applies with `transform`. -/
inductive Pass where
  | UniqueModuleRewriter
  | ParameterRewriter
  | GenerateRewriter
  | TypedefDeclarationRewriter
  | AssignmentRewriter
  deriving DecidableEq, Repr

/-- A `SyntaxTree` as far as the driver reads it: the text `root().toString()` and the
children of `root().childNode(0)`, a null child being `none`. -/
structure SyntaxTree where
  text : String
  children : List (Option SyntaxNode)
  deriving DecidableEq, Repr

/-- The values the command line parser stores for `driverMain`. -/
structure Options where
  top : String
  outFile : String
  files : List String
  cliArgfile : String
  cliSlangArgs : String
  cliSplit : Bool
  cliVersion : Bool
  cliVerbosity : Int
  cliTimeTrace : Bool
  deriving DecidableEq, Repr

/-- What `driverMain` does to the world outside of it, in the order it does it. -/
inductive Effect where
  /-- The call `Rewriter(design, alloc, strAlloc, diag).transform(synTree)` of a pass. -/
  | transform (pass : Pass) (synTree : SyntaxTree)
  /-- The recompilation: `SyntaxTree::fromFileInMemory` on the text of the tree, a new
  `Compilation` and a new `Design`. -/
  | recompile (text : String)
  /-- A stream is opened on `fileName` (`-` is the standard output) and `contents` is
  written to it and flushed. -/
  | write (fileName : String) (contents : String)
  /-- The call `std::filesystem::create_directory(path)`. -/
  | createDirectory (path : String)
  deriving DecidableEq, Repr

/-- Whether an effect touches an output: a write or the creation of the directory. -/
def Effect.isOutput : Effect → Bool
  | .write _ _ => true
  | .createDirectory _ => true
  | _ => false

/-- How a call of `driverMain` ends: it returns an exit code, or an exception leaves it
(nothing in `main` catches it). -/
inductive Ending where
  | returned (code : Int)
  | uncaught (what : String)
  deriving DecidableEq, Repr

/-- The answers of the collaborators of `driverMain` in one run. `Res` is the type of the
resources the rewriters reference (design, allocators, diagnostics); a pass may change
them. An `Except.error` is a `std::exception` raised by the call. -/
structure Collaborators (Res : Type) where
  /-- Outcome of `CLI11_PARSE(app, argc, argv)`: the options, or the value the macro makes
  `driverMain` return at once. -/
  cliParse : Except Int Options
  /-- Value of `slangDriver.processCommandFiles(cliArgfile, true)`. -/
  processCommandFiles : Bool
  /-- Value of `slangDriver.parseCommandLine(slangCmd)`. -/
  parseCommandLine : Bool
  /-- Value of `slangDriver.processOptions()`. -/
  processOptions : Bool
  /-- Value of `slangDriver.parseAllSources()`, or the exception it raises. -/
  parseAllSources : Except String Bool
  /-- Value of `slangDriver.reportCompilation` on the result of
  `slangDriver.createCompilation()`, or the exception one of them raises. -/
  reportCompilation : Except String Bool
  /-- The `Design` of the first top instance and `getSyntaxTrees().back()`. -/
  design : Except String (Res × SyntaxTree)
  /-- The `transform` of a pass on the current resources and tree. -/
  transform : Pass → Res → SyntaxTree → Except String (Res × SyntaxTree)
  /-- The recompilation of a text: the new resources and the new syntax tree. -/
  recompile : Res → String → Except String (Res × SyntaxTree)
  /-- An exception raised inside the `try` block of the postprocessing, if any. -/
  postprocessRaises : Option String
  /-- Value of `std::filesystem::is_directory(defaultPath)`. -/
  isDirectory : Bool
  /-- Value of `std::filesystem::exists(defaultPath)`. -/
  pathExists : Bool
  /-- Outcome of `std::filesystem::create_directory(defaultPath)`. -/
  createDirectory : Except String Unit
  /-- Whether the stream opened on a file name is good after the write and the flush. -/
  streamGood : String → Bool

/-- A part of a run: the effects it performed and the value it produced or the exception
it raised. -/
structure Step (α : Type) where
  effects : List Effect
  result : Except String α

/-- A part of a run that does nothing and produces `a`. -/
def Step.done {α : Type} (a : α) : Step α := ⟨[], .ok a⟩

/-- Sequencing of two parts of a run: the second one runs on the value of the first, and
not at all when the first raises. -/
def Step.andThen {α β : Type} (x : Step α) (f : α → Step β) : Step β :=
  match x.result with
  | .error e => ⟨x.effects, .error e⟩
  | .ok a => ⟨x.effects ++ (f a).effects, (f a).result⟩

/-- The function template `writeToFile(os, fileName, contents)` on the stream that the
overload `writeToFile(fileName, contents)` opens: the write, then the exception when the
stream is not good. The standard output is named `stdout` in the message. -/
def writeToFile {Res : Type} (c : Collaborators Res) (fileName contents : String) :
    Step Unit :=
  ⟨[.write fileName contents],
    if c.streamGood fileName then .ok ()
    else .error ("Unable to write AST to '" ++ (if fileName = "-" then "stdout" else fileName)
      ++ "'")⟩

/-- One call `Rewriter(...).transform(synTree)` and the assignment of its result. -/
def applyPass {Res : Type} (c : Collaborators Res) (pass : Pass) (st : Res × SyntaxTree) :
    Step (Res × SyntaxTree) :=
  ⟨[.transform pass st.2], c.transform pass st.1 st.2⟩

/-- Lines 194 to 211 of `driverMain`: the tree is printed, parsed again and compiled. -/
def recompileStep {Res : Type} (c : Collaborators Res) (st : Res × SyntaxTree) :
    Step (Res × SyntaxTree) :=
  ⟨[.recompile st.2.text], c.recompile st.1 st.2.text⟩

/-- Lines 167 to 223 of `driverMain`, the stage `REWRITE`; no `try` block surrounds it. -/
def rewriteStage {Res : Type} (c : Collaborators Res) : Step (Res × SyntaxTree) :=
  (Step.mk [] c.design).andThen fun st =>
  (applyPass c .UniqueModuleRewriter st).andThen fun st =>
  (applyPass c .ParameterRewriter st).andThen fun st =>
  (applyPass c .GenerateRewriter st).andThen fun st =>
  (applyPass c .TypedefDeclarationRewriter st).andThen fun st =>
  (recompileStep c st).andThen fun st =>
  (applyPass c .UniqueModuleRewriter st).andThen fun st =>
  (applyPass c .ParameterRewriter st).andThen fun st =>
  applyPass c .AssignmentRewriter st

/-- The five counters of the postprocessing loop. They are `int`s that start at 0 and are
incremented by one; the embedding counts in `Nat`. -/
structure Counters where
  moduleAmount : Nat
  packageAmount : Nat
  interfaceAmount : Nat
  classAmount : Nat
  unknownAmount : Nat
  deriving DecidableEq, Repr

/-- The text `fmt::format("{}_{}", kind, amount)`. -/
def formatSplitName (kind : String) (amount : Nat) : String :=
  kind ++ "_" ++ toString amount

/-- The loop of the postprocessing over the children of `root().childNode(0)`: the pairs
appended to `postBuffersFiles`. -/
def splitBuffers (cnt : Counters) : List (Option SyntaxNode) → List (String × String)
  | [] => []
  | none :: rest => splitBuffers cnt rest
  | some child :: rest =>
    if child.kind = SyntaxKind.ModuleDeclaration then
      (formatSplitName "module" cnt.moduleAmount, child.text) ::
        splitBuffers { cnt with moduleAmount := cnt.moduleAmount + 1 } rest
    else if child.kind = SyntaxKind.PackageDeclaration then
      (formatSplitName "package" cnt.packageAmount, child.text) ::
        splitBuffers { cnt with packageAmount := cnt.packageAmount + 1 } rest
    else if child.kind = SyntaxKind.InterfaceDeclaration then
      (formatSplitName "interface" cnt.interfaceAmount, child.text) ::
        splitBuffers { cnt with interfaceAmount := cnt.interfaceAmount + 1 } rest
    else if child.kind = SyntaxKind.ClassDeclaration then
      (formatSplitName "class" cnt.classAmount, child.text) ::
        splitBuffers { cnt with classAmount := cnt.classAmount + 1 } rest
    else
      (formatSplitName "unknown" cnt.unknownAmount, child.text) ::
        splitBuffers { cnt with unknownAmount := cnt.unknownAmount + 1 } rest

/-- The `try` block of the stage `POSTPROCESS`: the text of `postBuffers.back()` and the
list `postBuffersFiles`, or the exception raised in the block. -/
def postprocess {Res : Type} (c : Collaborators Res) (synTree : SyntaxTree) :
    Except String (String × List (String × String)) :=
  match c.postprocessRaises with
  | some e => .error e
  | none => .ok (synTree.text, splitBuffers ⟨0, 0, 0, 0, 0⟩ synTree.children)

/-- The constant `defaultPath` of `driverMain`. -/
def defaultPath : String := "splitted_output"

/-- The loop over `postBuffersFiles` in the stage `WRITEOUT`. -/
def writeSplit {Res : Type} (c : Collaborators Res) : List (String × String) → Step Unit
  | [] => Step.done ()
  | buffer :: rest =>
    (writeToFile c (defaultPath ++ "/" ++ buffer.1 ++ ".sv") buffer.2).andThen fun _ =>
      writeSplit c rest

/-- Lines 271 to 287 of `driverMain`, the stage `WRITEOUT`; no `try` block surrounds it. -/
def writeStage {Res : Type} (c : Collaborators Res) (o : Options) (postBuffer : String)
    (postBuffersFiles : List (String × String)) : Step Unit :=
  (writeToFile c o.outFile postBuffer).andThen fun _ =>
    if o.cliSplit then
      (if !c.isDirectory || !c.pathExists then
          (⟨[.createDirectory defaultPath], c.createDirectory⟩ : Step Unit)
        else Step.done ()).andThen fun _ =>
        writeSplit c postBuffersFiles
    else Step.done ()

/-- The value of `ok` at line 122 of `driverMain`, after the options went to the front
end. -/
def setupStage {Res : Type} (c : Collaborators Res) (o : Options) : Bool :=
  let ok := true
  let ok := if o.cliArgfile.length > 0 then ok && c.processCommandFiles else ok
  let ok := ok && c.parseCommandLine
  ok && c.processOptions

/-- The value of `ok` at line 149 of `driverMain`, after the stage `PARSE`. -/
def parseStage {Res : Type} (c : Collaborators Res) : Bool :=
  match c.parseAllSources with
  | .ok ok => ok
  | .error _ => false

/-- The value of `ok` at line 164 of `driverMain`, after the stage `COMPILE`. -/
def compileStage {Res : Type} (c : Collaborators Res) : Bool :=
  match c.reportCompilation with
  | .ok ok => ok
  | .error _ => false

/-- A run of `driverMain`: how it ends and the effects it performed. -/
structure Run where
  ending : Ending
  effects : List Effect
  deriving DecidableEq, Repr

/-- The function `driverMain` of `driver.cpp`. The diagnostics it logs and the time trace
are left out. -/
def driverMain {Res : Type} (c : Collaborators Res) : Run :=
  match c.cliParse with
  | .error code => ⟨.returned code, []⟩
  | .ok o =>
    if !setupStage c o then ⟨.returned 2, []⟩
    else if !parseStage c then ⟨.returned 4, []⟩
    else if !compileStage c then ⟨.returned 5, []⟩
    else
      let rewritten := rewriteStage c
      match rewritten.result with
      | .error e => ⟨.uncaught e, rewritten.effects⟩
      | .ok st =>
        match postprocess c st.2 with
        | .error _ => ⟨.returned 7, rewritten.effects⟩
        | .ok post =>
          let written := writeStage c o post.1 post.2
          match written.result with
          | .error e => ⟨.uncaught e, rewritten.effects ++ written.effects⟩
          | .ok _ => ⟨.returned 0, rewritten.effects ++ written.effects⟩

/-! ## Notions the statements about the driver use -/

/-- The passes applied before the recompilation, in order: the passes of the `transform`
effects that come before the first `recompile` effect. -/
def passesBefore : List Effect → List Pass
  | [] => []
  | .transform pass _ :: rest => pass :: passesBefore rest
  | .recompile _ :: _ => []
  | _ :: rest => passesBefore rest

/-- The passes of all `transform` effects of a list, in order. -/
def passesOf : List Effect → List Pass
  | [] => []
  | .transform pass _ :: rest => pass :: passesOf rest
  | _ :: rest => passesOf rest

/-- The passes applied after the recompilation, in order: the passes of the `transform`
effects that come after the first `recompile` effect. -/
def passesAfter : List Effect → List Pass
  | [] => []
  | .recompile _ :: rest => passesOf rest
  | _ :: rest => passesAfter rest

/-- The kind word in the name of the split file of a top-level declaration. -/
def kindName : SyntaxKind → String
  | .ModuleDeclaration => "module"
  | .PackageDeclaration => "package"
  | .InterfaceDeclaration => "interface"
  | .ClassDeclaration => "class"
  | _ => "unknown"

/-- The number of declarations among the first `i` of `decls` whose kind word is the one
of `k`. -/
def earlierOfKind (decls : List SyntaxNode) (i : Nat) (k : SyntaxKind) : Nat :=
  (decls.take i).countP fun d => kindName d.kind = kindName k

/-- The non-null nodes of a list of children of `root().childNode(0)`, in order: the
top-level declarations. -/
def topDeclarations (children : List (Option SyntaxNode)) : List SyntaxNode :=
  children.filterMap id

/-- The counter of the postprocessing loop that a declaration of kind `k` is numbered
with. -/
def Counters.amountOf (cnt : Counters) : SyntaxKind → Nat
  | .ModuleDeclaration => cnt.moduleAmount
  | .PackageDeclaration => cnt.packageAmount
  | .InterfaceDeclaration => cnt.interfaceAmount
  | .ClassDeclaration => cnt.classAmount
  | _ => cnt.unknownAmount

/-- The counters after a declaration of kind `k` has been numbered. -/
def Counters.bump (cnt : Counters) : SyntaxKind → Counters
  | .ModuleDeclaration => { cnt with moduleAmount := cnt.moduleAmount + 1 }
  | .PackageDeclaration => { cnt with packageAmount := cnt.packageAmount + 1 }
  | .InterfaceDeclaration => { cnt with interfaceAmount := cnt.interfaceAmount + 1 }
  | .ClassDeclaration => { cnt with classAmount := cnt.classAmount + 1 }
  | _ => { cnt with unknownAmount := cnt.unknownAmount + 1 }

/-- The write of a split buffer: the file `splitted_output/<name>.sv` with its text. -/
def splitWrite (buffer : String × String) : Effect :=
  .write ("splitted_output/" ++ buffer.1 ++ ".sv") buffer.2

/-- An instance of a module with value parameters `A` and `B` and a local parameter. -/
def instLocalA : InstanceSymbol :=
  ⟨[.typeParameter ⟨"T", false, "logic[7:0]"⟩, .typeParameter ⟨"L", true, "int"⟩,
    .parameter ⟨"WIDTH", false, "32'sd8"⟩, .parameter ⟨"HALF", true, "32'sd4"⟩]⟩

/-- The same non-local parameterization as `instLocalA`, other local parameters. -/
def instLocalB : InstanceSymbol :=
  ⟨[.typeParameter ⟨"T", false, "logic[7:0]"⟩, .typeParameter ⟨"L", true, "bit"⟩,
    .other "clk", .parameter ⟨"WIDTH", false, "32'sd8"⟩,
    .parameter ⟨"DEPTH", true, "32'sd99"⟩]⟩

/-- An instance of `module M #(parameter string A, parameter string B)` with
`A = "x\",B:\"y"` and `B = "z"`; string values print between double quotes. -/
def instCollideA : InstanceSymbol :=
  ⟨[.parameter ⟨"A", false, "\"x\",B:\"y\""⟩, .parameter ⟨"B", false, "\"z\""⟩]⟩

/-- An instance of the same module with `A = "x"` and `B = "y\",B:\"z"`. -/
def instCollideB : InstanceSymbol :=
  ⟨[.parameter ⟨"A", false, "\"x\""⟩, .parameter ⟨"B", false, "\"y\",B:\"z\""⟩]⟩

/-- A generate block syntax node at offset 40 of buffer 1, parsed in epoch 1. -/
def genSynEpoch1 : EpochSyntax :=
  ⟨1, ⟨.GenerateBlock, ⟨1, 40⟩, "begin end"⟩⟩

/-- A scope resolved in epoch 2 holding a generate block symbol at offset 40 of buffer 1
of that epoch. -/
def scopeEpoch2 : EpochScope :=
  ⟨2, ⟨[⟨.Parameter, "N", ⟨1, 12⟩⟩, ⟨.GenerateBlock, "other_blk", ⟨1, 40⟩⟩]⟩⟩

/-- The options of the demonstration runs: split mode, output to `out.sv`. -/
def demoOptions : Options :=
  ⟨"top", "out.sv", ["top.sv"], "", "", true, false, 2, false⟩

/-- A tree with one module and one package. -/
def demoTree : SyntaxTree :=
  ⟨"module top; endmodule package p; endpackage",
    [some ⟨.ModuleDeclaration, ⟨1, 0⟩, "module top; endmodule"⟩,
     some ⟨.PackageDeclaration, ⟨1, 22⟩, "package p; endpackage"⟩]⟩

/-- The mark a demonstration pass leaves at the end of the text of the tree. -/
def passMark : Pass → String
  | .UniqueModuleRewriter => " /*U*/"
  | .ParameterRewriter => " /*P*/"
  | .GenerateRewriter => " /*G*/"
  | .TypedefDeclarationRewriter => " /*T*/"
  | .AssignmentRewriter => " /*A*/"

/-- A run in which every collaborator succeeds; each pass marks the text of the tree. -/
def demoRun : Collaborators Unit where
  cliParse := .ok demoOptions
  processCommandFiles := true
  parseCommandLine := true
  processOptions := true
  parseAllSources := .ok true
  reportCompilation := .ok true
  design := .ok ((), demoTree)
  transform := fun pass _ t => .ok ((), ⟨t.text ++ passMark pass, t.children⟩)
  recompile := fun _ text => .ok ((), ⟨text, demoTree.children⟩)
  postprocessRaises := none
  isDirectory := false
  pathExists := false
  createDirectory := .ok ()
  streamGood := fun _ => true

/-- The run `demoRun` with a `GenerateRewriter` that raises. -/
def demoRewriteFails : Collaborators Unit :=
  { demoRun with
    transform := fun pass _ t =>
      if pass = Pass.GenerateRewriter then .error "generate block without symbol"
      else .ok ((), ⟨t.text ++ passMark pass, t.children⟩) }

/-- The run `demoRun` with a front end that reports a failed compilation. -/
def demoCompileFails : Collaborators Unit :=
  { demoRun with reportCompilation := .ok false }

/-- The run `demoRun` with a stream on the output path that is not good after the
write. -/
def demoOutWriteFails : Collaborators Unit :=
  { demoRun with streamGood := fun fileName => fileName ≠ "out.sv" }

/-- The run `demoRun` with a front end whose `parseAllSources` raises. -/
def demoParseRaises : Collaborators Unit :=
  { demoRun with parseAllSources := .error "cannot open top.sv" }

/-! ## Theorems: fingerprint -/

theorem concatParams_append (l₁ l₂ : List (String × String)) :
    concatParams (l₁ ++ l₂) = concatParams l₁ ++ concatParams l₂ := by
  induction l₁ with
  | nil => simp [concatParams]
  | cons p rest ih =>
    obtain ⟨n, v⟩ := p
    simp [concatParams, ih, String.append_assoc]

theorem appendTypeParams_eq (h : String) (l : List TypeParameterSymbol) :
    appendTypeParams h l =
      h ++ concatParams ((l.filter fun p => !p.isLocalParam).map
        fun p => (p.name, p.printedType)) := by
  induction l generalizing h with
  | nil => simp [appendTypeParams, concatParams]
  | cons p rest ih =>
    cases hp : p.isLocalParam <;>
      simp [appendTypeParams, hp, ih, concatParams, String.append_assoc]

theorem appendValueParams_eq (h : String) (l : List ParameterSymbol) :
    appendValueParams h l =
      h ++ concatParams ((l.filter fun p => !p.isLocalParam).map
        fun p => (p.name, p.printedValue)) := by
  induction l generalizing h with
  | nil => simp [appendValueParams, concatParams]
  | cons p rest ih =>
    cases hp : p.isLocalParam <;>
      simp [appendValueParams, hp, ih, concatParams, String.append_assoc]

theorem genParamString_eq_concat (sym : InstanceSymbol) :
    genParamString sym = concatParams (nonLocalParams sym) := by
  simp [genParamString, nonLocalParams, nonLocalTypeParams, nonLocalValueParams,
    appendTypeParams_eq, appendValueParams_eq, concatParams_append]

/-- C1: `areParamEqual` is reflexive, symmetric and transitive on instances, and it holds
exactly when `genParamString` gives the same string for both instances. -/
theorem areParamEqual_equivalence :
    (∀ a, areParamEqual a a = true) ∧
    (∀ a b, areParamEqual a b = true → areParamEqual b a = true) ∧
    (∀ a b c, areParamEqual a b = true → areParamEqual b c = true →
      areParamEqual a c = true) ∧
    (∀ a b, areParamEqual a b = true ↔ genParamString a = genParamString b) := by
  refine ⟨?_, ?_, ?_, ?_⟩
  · intro a
    simp [areParamEqual]
  · intro a b h
    simp only [areParamEqual, beq_iff_eq] at h ⊢
    exact h.symm
  · intro a b c hab hbc
    simp only [areParamEqual, beq_iff_eq] at hab hbc ⊢
    exact hab.trans hbc
  · intro a b
    simp [areParamEqual]

/-- C2: two instances whose non-local type parameters and non-local value parameters have
the same names and printed values in the same order get the same string from
`genParamString` and `true` from `areParamEqual`, whatever their local parameters and
other members are. -/
theorem genParamString_ignores_local (a b : InstanceSymbol)
    (hT : nonLocalTypeParams a = nonLocalTypeParams b)
    (hV : nonLocalValueParams a = nonLocalValueParams b) :
    genParamString a = genParamString b ∧ areParamEqual a b = true := by
  have h : genParamString a = genParamString b := by
    rw [genParamString_eq_concat, genParamString_eq_concat, nonLocalParams, nonLocalParams,
      hT, hV]
  exact ⟨h, by simp [areParamEqual, h]⟩

/-- Witness of C2: `instLocalA` and `instLocalB` differ in their local parameters (names,
values and number) and have the same fingerprint. -/
theorem genParamString_ignores_local_witness :
    instLocalA ≠ instLocalB ∧
    genParamString instLocalA = "T:logic[7:0],WIDTH:32'sd8," ∧
    genParamString instLocalA = genParamString instLocalB ∧
    areParamEqual instLocalA instLocalB = true :=
  ⟨by decide, by decide,
    (genParamString_ignores_local instLocalA instLocalB (by decide) (by decide)).1,
    (genParamString_ignores_local instLocalA instLocalB (by decide) (by decide)).2⟩

/-- C3, at the failing input: two instances of one module whose non-local parameters have
the same names and different printed values get the same string from `genParamString`,
and `areParamEqual` answers `true` for them. -/
theorem genParamString_collision :
    nonLocalParams instCollideA ≠ nonLocalParams instCollideB ∧
    (nonLocalParams instCollideA).map Prod.fst = (nonLocalParams instCollideB).map Prod.fst ∧
    genParamString instCollideA = "A:\"x\",B:\"y\",B:\"z\"," ∧
    genParamString instCollideB = "A:\"x\",B:\"y\",B:\"z\"," ∧
    areParamEqual instCollideA instCollideB = true := by
  refine ⟨by decide, by decide, by decide, by decide, by decide⟩

/-! ## Theorems: source-location anchors -/

theorem size_hash_sup_le (szt : Nat) : size_hash_sup szt ≤ 2 ^ size_half_bits szt := by
  unfold size_hash_sup
  rw [Nat.shiftLeft_eq, Nat.one_mul]
  exact Nat.mod_le _ _

theorem two_pow_half_mul (szt : Nat) :
    2 ^ size_half_bits szt * 2 ^ size_half_bits szt = 2 ^ (8 * szt) := by
  unfold size_half_bits
  rw [← Nat.pow_add]
  congr 1
  omega

/-- Under its two assertions `getSourceLocIdx` is `bufId * 2 ^ size_half_bits + bufOffs`. -/
theorem getSourceLocIdx_eq_add (szt : Nat) (loc : SourceLocation)
    (h : sourceLocAsserts szt loc) :
    getSourceLocIdx szt loc = 2 ^ size_half_bits szt * loc.bufferId + loc.offset := by
  obtain ⟨hb, ho⟩ := h
  have hb' : loc.bufferId < 2 ^ size_half_bits szt := Nat.lt_of_lt_of_le hb (size_hash_sup_le szt)
  have ho' : loc.offset < 2 ^ size_half_bits szt := Nat.lt_of_lt_of_le ho (size_hash_sup_le szt)
  have hpos : 0 < 2 ^ size_half_bits szt := Nat.two_pow_pos _
  have hle : 2 ^ size_half_bits szt ≤ 2 ^ (8 * szt) := by
    rw [← two_pow_half_mul]
    exact Nat.le_mul_of_pos_right _ hpos
  have hmul : loc.bufferId * 2 ^ size_half_bits szt < 2 ^ (8 * szt) := by
    rw [← two_pow_half_mul]
    exact Nat.mul_lt_mul_of_pos_right hb' hpos
  unfold getSourceLocIdx
  rw [Nat.mod_eq_of_lt (Nat.lt_of_lt_of_le hb' hle), Nat.mod_eq_of_lt (Nat.lt_of_lt_of_le ho' hle),
    Nat.shiftLeft_eq, Nat.mod_eq_of_lt hmul, Nat.mul_comm, Nat.mul_add_lt_is_or ho']

/-- C4: for two source locations that satisfy the two assertions of `getSourceLocIdx`, the
indices are equal exactly when the buffer ids are equal and the offsets are equal; the
index is `(bufId << size_half_bits) | bufOffs`, the buffer id is the index shifted right by
`size_half_bits` and the offset is the index modulo `2 ^ size_half_bits`. -/
theorem getSourceLocIdx_collision_free (szt : Nat) (a b : SourceLocation)
    (ha : sourceLocAsserts szt a) (hb : sourceLocAsserts szt b) :
    (getSourceLocIdx szt a = getSourceLocIdx szt b ↔
      a.bufferId = b.bufferId ∧ a.offset = b.offset) ∧
    getSourceLocIdx szt a = (a.bufferId <<< size_half_bits szt) ||| a.offset ∧
    getSourceLocIdx szt a >>> size_half_bits szt = a.bufferId ∧
    getSourceLocIdx szt a % 2 ^ size_half_bits szt = a.offset := by
  have hpos : 0 < 2 ^ size_half_bits szt := Nat.two_pow_pos _
  have hoa : a.offset < 2 ^ size_half_bits szt := Nat.lt_of_lt_of_le ha.2 (size_hash_sup_le szt)
  have hob : b.offset < 2 ^ size_half_bits szt := Nat.lt_of_lt_of_le hb.2 (size_hash_sup_le szt)
  have hdiv : ∀ (l : SourceLocation), l.offset < 2 ^ size_half_bits szt →
      (2 ^ size_half_bits szt * l.bufferId + l.offset) / 2 ^ size_half_bits szt
        = l.bufferId := by
    intro l hl
    rw [Nat.mul_add_div hpos, Nat.div_eq_of_lt hl, Nat.add_zero]
  have hmod : ∀ (l : SourceLocation), l.offset < 2 ^ size_half_bits szt →
      (2 ^ size_half_bits szt * l.bufferId + l.offset) % 2 ^ size_half_bits szt
        = l.offset := by
    intro l hl
    rw [Nat.mul_add_mod, Nat.mod_eq_of_lt hl]
  refine ⟨?_, ?_, ?_, ?_⟩
  · rw [getSourceLocIdx_eq_add szt a ha, getSourceLocIdx_eq_add szt b hb]
    constructor
    · intro h
      have h1 := congrArg (· / 2 ^ size_half_bits szt) h
      have h2 := congrArg (· % 2 ^ size_half_bits szt) h
      simp only [hdiv a hoa, hdiv b hob, hmod a hoa, hmod b hob] at h1 h2
      exact ⟨h1, h2⟩
    · rintro ⟨h1, h2⟩
      rw [h1, h2]
  · rw [getSourceLocIdx_eq_add szt a ha, Nat.shiftLeft_eq, Nat.mul_comm a.bufferId,
      Nat.mul_add_lt_is_or hoa]
  · rw [getSourceLocIdx_eq_add szt a ha, Nat.shiftRight_eq_div_pow, hdiv a hoa]
  · rw [getSourceLocIdx_eq_add szt a ha, hmod a hoa]

/-- Witness of C4 on a 64-bit `size_t`: buffer 3, offset 17 against buffer 3, offset 18. -/
theorem getSourceLocIdx_collision_free_witness :
    sourceLocAsserts 8 ⟨3, 17⟩ ∧ sourceLocAsserts 8 ⟨3, 18⟩ ∧
    getSourceLocIdx 8 ⟨3, 17⟩ = 12884901905 ∧
    getSourceLocIdx 8 ⟨3, 17⟩ ≠ getSourceLocIdx 8 ⟨3, 18⟩ ∧
    getSourceLocIdx 8 ⟨3, 17⟩ >>> size_half_bits 8 = 3 ∧
    getSourceLocIdx 8 ⟨3, 17⟩ % 2 ^ size_half_bits 8 = 17 :=
  ⟨by decide, by decide, by decide,
    fun h => absurd (((getSourceLocIdx_collision_free 8 ⟨3, 17⟩ ⟨3, 18⟩
      (by decide) (by decide)).1.mp h).2) (by decide),
    (getSourceLocIdx_collision_free 8 ⟨3, 17⟩ ⟨3, 18⟩ (by decide) (by decide)).2.2.1,
    (getSourceLocIdx_collision_free 8 ⟨3, 17⟩ ⟨3, 18⟩ (by decide) (by decide)).2.2.2⟩

theorem synToSymLoop_some (szt : Nat) (syn : SyntaxNode) (l : List Symbol) (s : Symbol)
    (h : synToSymLoop szt syn l = some s) :
    ∃ pre post, l = pre ++ s :: post ∧
      getSymSourceLocIdx szt s = getSynSourceLocIdx szt syn ∧
      ∀ m ∈ pre, getSymSourceLocIdx szt m ≠ getSynSourceLocIdx szt syn := by
  induction l with
  | nil => simp [synToSymLoop] at h
  | cons m rest ih =>
    unfold synToSymLoop at h
    split at h
    · rename_i heq
      injection h with h
      subst h
      exact ⟨[], rest, rfl, heq, by simp⟩
    · rename_i hne
      obtain ⟨pre, post, hl, hidx, hpre⟩ := ih h
      refine ⟨m :: pre, post, by simp [hl], hidx, ?_⟩
      intro x hx
      rcases List.mem_cons.mp hx with hx | hx
      · subst hx
        exact hne
      · exact hpre x hx

theorem synToSymLoop_none (szt : Nat) (syn : SyntaxNode) (l : List Symbol) :
    synToSymLoop szt syn l = none ↔
      ∀ m ∈ l, getSymSourceLocIdx szt m ≠ getSynSourceLocIdx szt syn := by
  induction l with
  | nil => simp [synToSymLoop]
  | cons m rest ih =>
    unfold synToSymLoop
    split
    · rename_i heq
      simp [heq]
    · rename_i hne
      simp [ih, hne]

/-- C5: `synToSym<TSym>` returns a symbol only if it is a member of the scope of kind
`TSym` whose location index equals the start index of the syntax node; it returns null
exactly when no member of kind `TSym` has that index; the symbol returned is the first
such member in the member order of the scope. -/
theorem synToSym_sound_complete (szt : Nat) (isKind : SymbolKind → Bool) (syn : SyntaxNode)
    (scope : Scope) :
    (∀ s, synToSym szt isKind syn scope = some s →
      s ∈ scope.members ∧ isKind s.kind = true ∧
      getSymSourceLocIdx szt s = getSynSourceLocIdx szt syn) ∧
    (synToSym szt isKind syn scope = none ↔
      ∀ m ∈ scope.members, isKind m.kind = true →
        getSymSourceLocIdx szt m ≠ getSynSourceLocIdx szt syn) ∧
    (∀ s, synToSym szt isKind syn scope = some s →
      ∃ pre post, membersOfType isKind scope = pre ++ s :: post ∧
        ∀ m ∈ pre, getSymSourceLocIdx szt m ≠ getSynSourceLocIdx szt syn) := by
  refine ⟨?_, ?_, ?_⟩
  · intro s h
    obtain ⟨pre, post, hl, hidx, _⟩ := synToSymLoop_some szt syn _ s h
    have hmem : s ∈ membersOfType isKind scope := by
      rw [hl]
      simp
    unfold membersOfType at hmem
    rw [List.mem_filter] at hmem
    exact ⟨hmem.1, hmem.2, hidx⟩
  · unfold synToSym
    rw [synToSymLoop_none]
    unfold membersOfType
    constructor
    · intro h m hm hk
      exact h m (List.mem_filter.mpr ⟨hm, hk⟩)
    · intro h m hm
      rw [List.mem_filter] at hm
      exact h m hm.1 hm.2
  · intro s h
    obtain ⟨pre, post, hl, _, hpre⟩ := synToSymLoop_some szt syn _ s h
    exact ⟨pre, post, hl, hpre⟩

/-- C6, as stated, fails: the generate block node of epoch 1 is looked up in the scope of
epoch 2 and `synToSym` and `matchInstGenBlock` return the symbol `other_blk` of epoch 2,
which has the same buffer id and offset. -/
theorem anchorLookup_crosses_epochs :
    genSynEpoch1.epoch ≠ scopeEpoch2.epoch ∧
    anchorLookup 8 GenerateBlockSymbol.isKind genSynEpoch1 scopeEpoch2
      = some ⟨.GenerateBlock, "other_blk", ⟨1, 40⟩⟩ ∧
    anchorMatchGenBlock 8 genSynEpoch1 scopeEpoch2
      = some ⟨.GenerateBlock, "other_blk", ⟨1, 40⟩⟩ ∧
    ¬ (∀ (n : EpochSyntax) (s : EpochScope), n.epoch ≠ s.epoch →
        anchorLookup 8 GenerateBlockSymbol.isKind n s = none) := by
  refine ⟨by decide, by decide, by decide, ?_⟩
  intro h
  exact absurd (h genSynEpoch1 scopeEpoch2 (by decide)) (by decide)

theorem synToSymLoop_first (szt : Nat) (syn : SyntaxNode) (pre post : List Symbol)
    (s : Symbol) (hidx : getSymSourceLocIdx szt s = getSynSourceLocIdx szt syn)
    (hpre : ∀ m ∈ pre, getSymSourceLocIdx szt m ≠ getSynSourceLocIdx szt syn) :
    synToSymLoop szt syn (pre ++ s :: post) = some s := by
  induction pre with
  | nil => simp [synToSymLoop, hidx]
  | cons m rest ih =>
    have hm : getSymSourceLocIdx szt m ≠ getSynSourceLocIdx szt syn := hpre m (by simp)
    have hrest : ∀ x ∈ rest, getSymSourceLocIdx szt x ≠ getSynSourceLocIdx szt syn :=
      fun x hx => hpre x (by simp [hx])
    simp [synToSymLoop, hm, ih hrest]

/-- C6, amended: the anchor lookup reads no epoch. For a node and a scope of any two
epochs, equal or different, `synToSym` returns exactly the first member of the requested
kind, in the member order of the scope, whose location index is the index of the node,
and null exactly when no member of that kind has this index; the answer is the same for
every other pair of epochs. `matchInstGenBlock` on a non-null node is `synToSym` for
generate block symbols, and null on a null node. -/
theorem anchorLookup_reads_no_epoch (szt : Nat) (isKind : SymbolKind → Bool)
    (n : EpochSyntax) (s : EpochScope) :
    (∀ sym, anchorLookup szt isKind n s = some sym ↔
      ∃ pre post, (s.scope.members.filter fun m => isKind m.kind) = pre ++ sym :: post ∧
        getSourceLocIdx szt sym.location = getSourceLocIdx szt n.syn.start ∧
        ∀ m ∈ pre, getSourceLocIdx szt m.location ≠ getSourceLocIdx szt n.syn.start) ∧
    (anchorLookup szt isKind n s = none ↔
      ∀ m ∈ s.scope.members, isKind m.kind = true →
        getSourceLocIdx szt m.location ≠ getSourceLocIdx szt n.syn.start) ∧
    (∀ e₁ e₂ : Nat, anchorLookup szt isKind ⟨e₁, n.syn⟩ ⟨e₂, s.scope⟩ =
      anchorLookup szt isKind n s) ∧
    matchInstGenBlock szt (some n.syn) s.scope =
      anchorLookup szt (fun k => k = SymbolKind.GenerateBlock) n s ∧
    anchorMatchGenBlock szt n s =
      anchorLookup szt (fun k => k = SymbolKind.GenerateBlock) n s ∧
    matchInstGenBlock szt none s.scope = none := by
  refine ⟨?_, ?_, fun _ _ => rfl, rfl, rfl, rfl⟩
  · intro sym
    constructor
    · intro h
      obtain ⟨pre, post, hl, hidx, hpre⟩ := synToSymLoop_some szt n.syn _ sym h
      exact ⟨pre, post, hl, hidx, hpre⟩
    · rintro ⟨pre, post, hl, hidx, hpre⟩
      unfold anchorLookup synToSym membersOfType
      rw [hl]
      exact synToSymLoop_first szt n.syn pre post sym hidx hpre
  · unfold anchorLookup synToSym
    rw [synToSymLoop_none]
    unfold membersOfType
    constructor
    · intro h m hm hk
      exact h m (List.mem_filter.mpr ⟨hm, hk⟩)
    · intro h m hm
      rw [List.mem_filter] at hm
      exact h m hm.1 hm.2

/-! ## Theorems: the driver -/

theorem Step.andThen_ok {α β : Type} (x : Step α) (f : α → Step β) (b : β)
    (h : (x.andThen f).result = .ok b) :
    ∃ a, x.result = .ok a ∧ (f a).result = .ok b ∧
      (x.andThen f).effects = x.effects ++ (f a).effects := by
  unfold Step.andThen at h ⊢
  cases hx : x.result with
  | error e => simp [hx] at h
  | ok a =>
    simp only [hx] at h ⊢
    exact ⟨a, rfl, h, rfl⟩

theorem Step.andThen_effects {α β : Type} (x : Step α) (f : α → Step β) :
    (x.andThen f).effects = x.effects ∨
      ∃ a, x.result = .ok a ∧ (x.andThen f).effects = x.effects ++ (f a).effects := by
  unfold Step.andThen
  cases hx : x.result with
  | error e => exact Or.inl rfl
  | ok a => exact Or.inr ⟨a, rfl, rfl⟩

theorem rewriteStage_passes {Res : Type} (c : Collaborators Res) :
    passesBefore (rewriteStage c).effects <+:
      [.UniqueModuleRewriter, .ParameterRewriter, .GenerateRewriter,
        .TypedefDeclarationRewriter] ∧
    passesAfter (rewriteStage c).effects <+:
      [.UniqueModuleRewriter, .ParameterRewriter, .AssignmentRewriter] ∧
    ∀ e ∈ (rewriteStage c).effects, e.isOutput = false := by
  unfold rewriteStage
  simp only [Step.andThen, applyPass, recompileStep]
  repeat' split
  all_goals simp [passesBefore, passesAfter, passesOf, Effect.isOutput]

theorem rewriteStage_ok_chain {Res : Type} (c : Collaborators Res) (final : Res × SyntaxTree)
    (h : (rewriteStage c).result = .ok final) :
    ∃ s0 s1 s2 s3 s4 s5 s6 s7 : Res × SyntaxTree,
      c.design = .ok s0 ∧
      c.transform .UniqueModuleRewriter s0.1 s0.2 = .ok s1 ∧
      c.transform .ParameterRewriter s1.1 s1.2 = .ok s2 ∧
      c.transform .GenerateRewriter s2.1 s2.2 = .ok s3 ∧
      c.transform .TypedefDeclarationRewriter s3.1 s3.2 = .ok s4 ∧
      c.recompile s4.1 s4.2.text = .ok s5 ∧
      c.transform .UniqueModuleRewriter s5.1 s5.2 = .ok s6 ∧
      c.transform .ParameterRewriter s6.1 s6.2 = .ok s7 ∧
      c.transform .AssignmentRewriter s7.1 s7.2 = .ok final ∧
      (rewriteStage c).effects =
        [.transform .UniqueModuleRewriter s0.2, .transform .ParameterRewriter s1.2,
          .transform .GenerateRewriter s2.2, .transform .TypedefDeclarationRewriter s3.2,
          .recompile s4.2.text, .transform .UniqueModuleRewriter s5.2,
          .transform .ParameterRewriter s6.2, .transform .AssignmentRewriter s7.2] := by
  unfold rewriteStage at h ⊢
  obtain ⟨s0, h0, h, e0⟩ := Step.andThen_ok _ _ _ h
  obtain ⟨s1, h1, h, e1⟩ := Step.andThen_ok _ _ _ h
  obtain ⟨s2, h2, h, e2⟩ := Step.andThen_ok _ _ _ h
  obtain ⟨s3, h3, h, e3⟩ := Step.andThen_ok _ _ _ h
  obtain ⟨s4, h4, h, e4⟩ := Step.andThen_ok _ _ _ h
  obtain ⟨s5, h5, h, e5⟩ := Step.andThen_ok _ _ _ h
  obtain ⟨s6, h6, h, e6⟩ := Step.andThen_ok _ _ _ h
  obtain ⟨s7, h7, h, e7⟩ := Step.andThen_ok _ _ _ h
  refine ⟨s0, s1, s2, s3, s4, s5, s6, s7, h0, h1, h2, h3, h4, h5, h6, h7, h, ?_⟩
  rw [e0, e1, e2, e3, e4, e5, e6, e7]
  simp [applyPass, recompileStep]

theorem passesOf_append_outputs (l out : List Effect)
    (hout : ∀ e ∈ out, e.isOutput = true) : passesOf (l ++ out) = passesOf l := by
  induction l with
  | nil =>
    induction out with
    | nil => rfl
    | cons e rest ih =>
      have he := hout e (by simp)
      have hrest : ∀ x ∈ rest, x.isOutput = true := fun x hx => hout x (by simp [hx])
      cases e <;> simp_all [passesOf, Effect.isOutput]
  | cons e rest ih => cases e <;> simp_all [passesOf]

theorem passesBefore_append_outputs (l out : List Effect)
    (hout : ∀ e ∈ out, e.isOutput = true) : passesBefore (l ++ out) = passesBefore l := by
  induction l with
  | nil =>
    induction out with
    | nil => rfl
    | cons e rest ih =>
      have he := hout e (by simp)
      have hrest : ∀ x ∈ rest, x.isOutput = true := fun x hx => hout x (by simp [hx])
      cases e <;> simp_all [passesBefore, Effect.isOutput]
  | cons e rest ih => cases e <;> simp_all [passesBefore]

theorem passesAfter_append_outputs (l out : List Effect)
    (hout : ∀ e ∈ out, e.isOutput = true) : passesAfter (l ++ out) = passesAfter l := by
  induction l with
  | nil =>
    induction out with
    | nil => rfl
    | cons e rest ih =>
      have he := hout e (by simp)
      have hrest : ∀ x ∈ rest, x.isOutput = true := fun x hx => hout x (by simp [hx])
      cases e <;> simp_all [passesAfter, Effect.isOutput]
  | cons e rest ih =>
    cases e <;> simp_all [passesAfter, passesOf_append_outputs]

theorem Step.andThen_mem {α β : Type} (x : Step α) (f : α → Step β) (e : Effect)
    (he : e ∈ (x.andThen f).effects) : e ∈ x.effects ∨ ∃ a, e ∈ (f a).effects := by
  rcases Step.andThen_effects x f with h | ⟨a, _, h⟩
  · rw [h] at he
    exact Or.inl he
  · rw [h] at he
    rcases List.mem_append.mp he with he | he
    · exact Or.inl he
    · exact Or.inr ⟨a, he⟩

theorem writeToFile_outputs {Res : Type} (c : Collaborators Res) (fileName contents : String) :
    ∀ e ∈ (writeToFile c fileName contents).effects, e.isOutput = true := by
  intro e he
  simp only [writeToFile, List.mem_singleton] at he
  subst he
  rfl

theorem writeSplit_outputs {Res : Type} (c : Collaborators Res) (l : List (String × String)) :
    ∀ e ∈ (writeSplit c l).effects, e.isOutput = true := by
  induction l with
  | nil => simp [writeSplit, Step.done]
  | cons b rest ih =>
    intro e he
    unfold writeSplit at he
    rcases Step.andThen_mem _ _ e he with he | ⟨_, he⟩
    · exact writeToFile_outputs c _ _ e he
    · exact ih e he

theorem writeStage_outputs {Res : Type} (c : Collaborators Res) (o : Options) (b : String)
    (l : List (String × String)) :
    ∀ e ∈ (writeStage c o b l).effects, e.isOutput = true := by
  intro e he
  unfold writeStage at he
  rcases Step.andThen_mem _ _ e he with he | ⟨_, he⟩
  · exact writeToFile_outputs c _ _ e he
  · split at he
    · rcases Step.andThen_mem _ _ e he with he | ⟨_, he⟩
      · split at he
        · simp only [List.mem_singleton] at he
          subst he
          rfl
        · simp [Step.done] at he
      · exact writeSplit_outputs c l e he
    · simp [Step.done] at he

/-- The effects of a run whose command line parses and whose setup, parse and compile
stages succeed: those of the rewrite stage, followed by output effects only. -/
theorem driverMain_effects {Res : Type} (c : Collaborators Res) (o : Options)
    (hcli : c.cliParse = .ok o) (hsetup : setupStage c o = true)
    (hparse : parseStage c = true) (hcompile : compileStage c = true) :
    ∃ out, (driverMain c).effects = (rewriteStage c).effects ++ out ∧
      ∀ e ∈ out, e.isOutput = true := by
  simp only [driverMain, hcli, hsetup, hparse, hcompile]
  cases hrw : (rewriteStage c).result with
  | error e => exact ⟨[], by simp, by simp⟩
  | ok st =>
    cases hpost : postprocess c st.2 with
    | error e => exact ⟨[], by simp [hpost], by simp⟩
    | ok post =>
      refine ⟨(writeStage c o post.1 post.2).effects, ?_, writeStage_outputs c o _ _⟩
      cases hw : (writeStage c o post.1 post.2).result <;> simp [hpost, hw]

/-- C7, as stated, fails: in the run `demoRun`, which reaches the rewrite stage and returns
0, the passes applied before the recompilation are not Unique-Module Materialization and
Parameter Propagation alone, and the passes applied after it are not the five passes. -/
theorem driverMain_pass_order_differs :
    (driverMain demoRun).ending = .returned 0 ∧
    passesBefore (driverMain demoRun).effects =
      [.UniqueModuleRewriter, .ParameterRewriter, .GenerateRewriter,
        .TypedefDeclarationRewriter] ∧
    passesBefore (driverMain demoRun).effects ≠
      [.UniqueModuleRewriter, .ParameterRewriter] ∧
    passesAfter (driverMain demoRun).effects =
      [.UniqueModuleRewriter, .ParameterRewriter, .AssignmentRewriter] ∧
    passesAfter (driverMain demoRun).effects ≠
      [.UniqueModuleRewriter, .ParameterRewriter, .GenerateRewriter,
        .TypedefDeclarationRewriter, .AssignmentRewriter] := by
  refine ⟨by decide, by decide, by decide, by decide, by decide⟩

/-- C7, amended: on every run that reaches the rewrite stage, the passes applied before
the recompilation are an initial part of Unique-Module Materialization, Parameter
Propagation, Generate Unrolling, Typedef Propagation, and the passes applied after it an
initial part of Unique-Module Materialization, Parameter Propagation, Assignment Folding.
When no pass and no recompilation raises, they are exactly these four and these three, in
that order, each pass receives the resources and the tree the previous one produced, the
recompilation receives the text of the tree of Typedef Propagation and the first pass
after it receives the tree parsed from that text. -/
theorem driverMain_pass_order {Res : Type} (c : Collaborators Res) (o : Options)
    (hcli : c.cliParse = .ok o) (hsetup : setupStage c o = true)
    (hparse : parseStage c = true) (hcompile : compileStage c = true) :
    passesBefore (driverMain c).effects <+:
      [.UniqueModuleRewriter, .ParameterRewriter, .GenerateRewriter,
        .TypedefDeclarationRewriter] ∧
    passesAfter (driverMain c).effects <+:
      [.UniqueModuleRewriter, .ParameterRewriter, .AssignmentRewriter] ∧
    ∀ final, (rewriteStage c).result = .ok final →
      passesBefore (driverMain c).effects =
        [.UniqueModuleRewriter, .ParameterRewriter, .GenerateRewriter,
          .TypedefDeclarationRewriter] ∧
      passesAfter (driverMain c).effects =
        [.UniqueModuleRewriter, .ParameterRewriter, .AssignmentRewriter] ∧
      ∃ s0 s1 s2 s3 s4 s5 s6 s7 : Res × SyntaxTree,
        c.design = .ok s0 ∧
        c.transform .UniqueModuleRewriter s0.1 s0.2 = .ok s1 ∧
        c.transform .ParameterRewriter s1.1 s1.2 = .ok s2 ∧
        c.transform .GenerateRewriter s2.1 s2.2 = .ok s3 ∧
        c.transform .TypedefDeclarationRewriter s3.1 s3.2 = .ok s4 ∧
        c.recompile s4.1 s4.2.text = .ok s5 ∧
        c.transform .UniqueModuleRewriter s5.1 s5.2 = .ok s6 ∧
        c.transform .ParameterRewriter s6.1 s6.2 = .ok s7 ∧
        c.transform .AssignmentRewriter s7.1 s7.2 = .ok final ∧
        ∃ out, (∀ e ∈ out, e.isOutput = true) ∧
          (driverMain c).effects =
            [.transform .UniqueModuleRewriter s0.2, .transform .ParameterRewriter s1.2,
              .transform .GenerateRewriter s2.2,
              .transform .TypedefDeclarationRewriter s3.2,
              .recompile s4.2.text, .transform .UniqueModuleRewriter s5.2,
              .transform .ParameterRewriter s6.2, .transform .AssignmentRewriter s7.2]
            ++ out := by
  obtain ⟨out, heff, hout⟩ := driverMain_effects c o hcli hsetup hparse hcompile
  have hp := rewriteStage_passes c
  rw [heff, passesBefore_append_outputs _ _ hout, passesAfter_append_outputs _ _ hout]
  refine ⟨hp.1, hp.2.1, ?_⟩
  intro final hfinal
  obtain ⟨s0, s1, s2, s3, s4, s5, s6, s7, h0, h1, h2, h3, h4, h5, h6, h7, h8, he⟩ :=
    rewriteStage_ok_chain c final hfinal
  refine ⟨?_, ?_, s0, s1, s2, s3, s4, s5, s6, s7, h0, h1, h2, h3, h4, h5, h6, h7, h8,
    out, hout, ?_⟩
  · rw [he]
    simp [passesBefore]
  · rw [he]
    simp [passesAfter, passesOf]
  · rw [he]

/-- Witness of C7: `demoRun` reaches the rewrite stage, no pass raises in it, and the
passes before and after the recompilation are the four and the three. -/
theorem driverMain_pass_order_witness :
    demoRun.cliParse = .ok demoOptions ∧ setupStage demoRun demoOptions = true ∧
    parseStage demoRun = true ∧ compileStage demoRun = true ∧
    passesBefore (driverMain demoRun).effects =
      [.UniqueModuleRewriter, .ParameterRewriter, .GenerateRewriter,
        .TypedefDeclarationRewriter] ∧
    passesAfter (driverMain demoRun).effects =
      [.UniqueModuleRewriter, .ParameterRewriter, .AssignmentRewriter] :=
  ⟨rfl, by decide, by decide, by decide,
    ((driverMain_pass_order demoRun demoOptions rfl (by decide) (by decide) (by decide)).2.2
      _ rfl).1,
    ((driverMain_pass_order demoRun demoOptions rfl (by decide) (by decide) (by decide)).2.2
      _ rfl).2.1⟩

/-- C9, at the failing inputs: in the run `demoRewriteFails` a rewrite pass raises, in the
run `demoOutWriteFails` the write to the output path fails, and in both `driverMain`
returns no exit code at all, the exception leaves it; in the runs `demoParseRaises` and
`demoCompileFails` the sibling stages catch the failure and return 4 and 5. -/
theorem driverMain_failure_without_code :
    setupStage demoRewriteFails demoOptions = true ∧ parseStage demoRewriteFails = true ∧
    compileStage demoRewriteFails = true ∧
    (rewriteStage demoRewriteFails).result = .error "generate block without symbol" ∧
    (driverMain demoRewriteFails).ending = .uncaught "generate block without symbol" ∧
    (¬ ∃ code, (driverMain demoRewriteFails).ending = .returned code) ∧
    (rewriteStage demoOutWriteFails).result =
      .ok ((), ⟨"module top; endmodule package p; endpackage /*U*/ /*P*/ /*G*/ /*T*/ /*U*/ /*P*/ /*A*/",
        demoTree.children⟩) ∧
    (driverMain demoOutWriteFails).ending = .uncaught "Unable to write AST to 'out.sv'" ∧
    (¬ ∃ code, (driverMain demoOutWriteFails).ending = .returned code) ∧
    (driverMain demoParseRaises).ending = .returned 4 ∧
    (driverMain demoCompileFails).ending = .returned 5 := by
  have h1 : (driverMain demoRewriteFails).ending =
      .uncaught "generate block without symbol" := by decide
  have h2 : (driverMain demoOutWriteFails).ending =
      .uncaught "Unable to write AST to 'out.sv'" := by decide
  refine ⟨by decide, by decide, by decide, rfl, h1, ?_, rfl, h2, ?_, by decide, by decide⟩
  · rintro ⟨code, h⟩
    rw [h1] at h
    cases h
  · rintro ⟨code, h⟩
    rw [h2] at h
    cases h

/-- The endings of `driverMain` as the code produces them, on a run whose command line
parses: 0 exactly when every stage succeeds; 2, 4, 5 and 7 when setup, parse, compile or
postprocessing is the first stage to fail; no code when the rewrite stage or the write stage
raises, since no handler is in force there and the exception leaves `driverMain`. -/
theorem driverMain_exit_codes {Res : Type} (c : Collaborators Res) (o : Options)
    (hcli : c.cliParse = .ok o) :
    ((driverMain c).ending = .returned 0 ↔
      setupStage c o = true ∧ parseStage c = true ∧ compileStage c = true ∧
      ∃ st post, (rewriteStage c).result = .ok st ∧ postprocess c st.2 = .ok post ∧
        (writeStage c o post.1 post.2).result = .ok ()) ∧
    (setupStage c o = false → (driverMain c).ending = .returned 2) ∧
    (setupStage c o = true → parseStage c = false → (driverMain c).ending = .returned 4) ∧
    (setupStage c o = true → parseStage c = true → compileStage c = false →
      (driverMain c).ending = .returned 5) ∧
    (setupStage c o = true → parseStage c = true → compileStage c = true →
      ∀ e, (rewriteStage c).result = .error e → (driverMain c).ending = .uncaught e) ∧
    (setupStage c o = true → parseStage c = true → compileStage c = true →
      ∀ st e, (rewriteStage c).result = .ok st → postprocess c st.2 = .error e →
        (driverMain c).ending = .returned 7) ∧
    (setupStage c o = true → parseStage c = true → compileStage c = true →
      ∀ st post e, (rewriteStage c).result = .ok st → postprocess c st.2 = .ok post →
        (writeStage c o post.1 post.2).result = .error e →
        (driverMain c).ending = .uncaught e) ∧
    (∀ code, (driverMain c).ending = .returned code → code ∈ [0, 2, 4, 5, 7]) ∧
    ([0, 2, 4, 5, 7] : List Int).Nodup := by
  refine ⟨?_, ?_, ?_, ?_, ?_, ?_, ?_, ?_, by decide⟩
  · constructor
    · intro h
      simp only [driverMain, hcli] at h
      cases hs : setupStage c o <;> simp [hs] at h
      cases hp : parseStage c <;> simp [hp] at h
      cases hc : compileStage c <;> simp [hc] at h
      cases hrw : (rewriteStage c).result with
      | error e => simp [hrw] at h
      | ok st =>
        simp only [hrw] at h
        cases hpost : postprocess c st.2 with
        | error e => simp [hpost] at h
        | ok post =>
          simp only [hpost] at h
          cases hw : (writeStage c o post.1 post.2).result with
          | error e => simp [hw] at h
          | ok u => exact ⟨rfl, rfl, rfl, st, post, rfl, hpost, hw⟩
    · rintro ⟨hs, hp, hc, st, post, hrw, hpost, hw⟩
      simp [driverMain, hcli, hs, hp, hc, hrw, hpost, hw]
  · intro hs
    simp [driverMain, hcli, hs]
  · intro hs hp
    simp [driverMain, hcli, hs, hp]
  · intro hs hp hc
    simp [driverMain, hcli, hs, hp, hc]
  · intro hs hp hc e hrw
    simp [driverMain, hcli, hs, hp, hc, hrw]
  · intro hs hp hc st e hrw hpost
    simp [driverMain, hcli, hs, hp, hc, hrw, hpost]
  · intro hs hp hc st post e hrw hpost hw
    simp [driverMain, hcli, hs, hp, hc, hrw, hpost, hw]
  · intro code h
    simp only [driverMain, hcli] at h
    cases hs : setupStage c o <;> simp [hs] at h
    · simp [← h]
    cases hp : parseStage c <;> simp [hp] at h
    · simp [← h]
    cases hc : compileStage c <;> simp [hc] at h
    · simp [← h]
    cases hrw : (rewriteStage c).result with
    | error e => simp [hrw] at h
    | ok st =>
      simp only [hrw] at h
      cases hpost : postprocess c st.2 with
      | error e =>
        simp [hpost] at h
        simp [← h]
      | ok post =>
        simp only [hpost] at h
        cases hw : (writeStage c o post.1 post.2).result with
        | error e => simp [hw] at h
        | ok u =>
          simp [hw] at h
          simp [← h]

theorem splitBuffers_some (cnt : Counters) (child : SyntaxNode)
    (rest : List (Option SyntaxNode)) :
    splitBuffers cnt (some child :: rest) =
      (kindName child.kind ++ "_" ++ toString (cnt.amountOf child.kind), child.text) ::
        splitBuffers (cnt.bump child.kind) rest := by
  obtain ⟨k, st, txt⟩ := child
  cases k <;>
    simp [splitBuffers, kindName, Counters.amountOf, Counters.bump, formatSplitName]

theorem bump_amountOf (cnt : Counters) (pre : List SyntaxNode) (child : SyntaxNode)
    (hinv : ∀ k, cnt.amountOf k = pre.countP fun d => kindName d.kind = kindName k) :
    ∀ k, (cnt.bump child.kind).amountOf k =
      (pre ++ [child]).countP fun d => kindName d.kind = kindName k := by
  intro k
  have hk := hinv k
  rw [List.countP_append, ← hk]
  obtain ⟨ck, st, txt⟩ := child
  cases ck <;> cases k <;>
    simp [Counters.bump, Counters.amountOf, kindName, List.countP_cons]

theorem splitBuffers_length (children : List (Option SyntaxNode)) :
    ∀ cnt, (splitBuffers cnt children).length = (children.filterMap id).length := by
  induction children with
  | nil => intro cnt; simp [splitBuffers]
  | cons ch rest ih =>
    intro cnt
    cases ch with
    | none => simpa [splitBuffers] using ih cnt
    | some child =>
      rw [splitBuffers_some]
      simp [ih]

theorem splitBuffers_index (children : List (Option SyntaxNode)) :
    ∀ (pre : List SyntaxNode) (cnt : Counters),
      (∀ k, cnt.amountOf k = pre.countP fun d => kindName d.kind = kindName k) →
      ∀ (i : Nat) (d : SyntaxNode), (children.filterMap id)[i]? = some d →
        (splitBuffers cnt children)[i]? =
          some (kindName d.kind ++ "_" ++
            toString ((pre ++ (children.filterMap id).take i).countP
              fun x => kindName x.kind = kindName d.kind), d.text) := by
  induction children with
  | nil => intro pre cnt _ i d h; simp at h
  | cons ch rest ih =>
    intro pre cnt hinv i d h
    cases ch with
    | none =>
      simp only [List.filterMap_cons_none, id_eq, splitBuffers] at h ⊢
      exact ih pre cnt hinv i d h
    | some child =>
      rw [splitBuffers_some]
      have hfm : (some child :: rest).filterMap id = child :: rest.filterMap id := rfl
      rw [hfm] at h ⊢
      cases i with
      | zero =>
        simp only [List.getElem?_cons_zero, Option.some.injEq] at h
        subst h
        simp [hinv]
      | succ j =>
        simp only [List.getElem?_cons_succ] at h
        have := ih (pre ++ [child]) (cnt.bump child.kind) (bump_amountOf cnt pre child hinv)
          j d h
        simpa using this

theorem writeSplit_ok_effects {Res : Type} (c : Collaborators Res)
    (l : List (String × String)) (h : (writeSplit c l).result = .ok ()) :
    (writeSplit c l).effects = l.map splitWrite := by
  induction l with
  | nil => simp [writeSplit, Step.done]
  | cons b rest ih =>
    unfold writeSplit at h ⊢
    obtain ⟨a, _, h2, he⟩ := Step.andThen_ok _ _ _ h
    rw [he, ih h2]
    simp [writeToFile, splitWrite, defaultPath, String.append_assoc]

theorem writeStage_split_ok_effects {Res : Type} (c : Collaborators Res) (o : Options)
    (b : String) (l : List (String × String)) (hsplit : o.cliSplit = true)
    (h : (writeStage c o b l).result = .ok ()) :
    (writeStage c o b l).effects =
      [.write o.outFile b] ++
        (if !c.isDirectory || !c.pathExists then [.createDirectory "splitted_output"]
          else []) ++ l.map splitWrite := by
  unfold writeStage at h ⊢
  simp only [hsplit, if_true] at h ⊢
  obtain ⟨_, _, h1, e1⟩ := Step.andThen_ok _ _ _ h
  obtain ⟨_, _, h2, e2⟩ := Step.andThen_ok _ _ _ h1
  rw [e1, e2, writeSplit_ok_effects c l h2]
  by_cases hd : (!c.isDirectory || !c.pathExists) = true
  · simp [hd, writeToFile, defaultPath]
  · simp [hd, writeToFile, Step.done]

/-- C8: for every list of children of the root of the final tree, the split buffers are
one per non-null top-level declaration, in traversal order, and the buffer of the
declaration at position `i` is named `<kind>_<k>`: the kind word of its syntax kind
(module, package, interface, class, or unknown for any other kind) and the number `k` of
earlier declarations with the same kind word. A module and a package alone give the files
`module_0` and `package_0`. On a run in split mode that returns 0, the effects after the
rewrite stage are the write of the whole text to the output path, the creation of the
directory `splitted_output` when it is not there, and one write per split buffer, in
order, to `splitted_output/<name>.sv`. The counters are taken not to overflow `int`. -/
theorem driverMain_split_naming {Res : Type} (c : Collaborators Res) (o : Options)
    (children : List (Option SyntaxNode)) :
    (splitBuffers ⟨0, 0, 0, 0, 0⟩ children).length = (topDeclarations children).length ∧
    (∀ (i : Nat) (d : SyntaxNode), (topDeclarations children)[i]? = some d →
      (splitBuffers ⟨0, 0, 0, 0, 0⟩ children)[i]? =
        some (kindName d.kind ++ "_" ++
          toString (earlierOfKind (topDeclarations children) i d.kind), d.text) ∧
      ((splitBuffers ⟨0, 0, 0, 0, 0⟩ children).map splitWrite)[i]? =
        some (.write ("splitted_output/" ++ kindName d.kind ++ "_" ++
          toString (earlierOfKind (topDeclarations children) i d.kind) ++ ".sv") d.text)) ∧
    (∀ m p : SyntaxNode, m.kind = .ModuleDeclaration → p.kind = .PackageDeclaration →
      (topDeclarations children = [m, p] →
        (splitBuffers ⟨0, 0, 0, 0, 0⟩ children).map splitWrite =
          [.write "splitted_output/module_0.sv" m.text,
            .write "splitted_output/package_0.sv" p.text]) ∧
      (topDeclarations children = [p, m] →
        (splitBuffers ⟨0, 0, 0, 0, 0⟩ children).map splitWrite =
          [.write "splitted_output/package_0.sv" p.text,
            .write "splitted_output/module_0.sv" m.text])) ∧
    (c.cliParse = .ok o → o.cliSplit = true → (driverMain c).ending = .returned 0 →
      ∃ final, (rewriteStage c).result = .ok final ∧
        (driverMain c).effects =
          (rewriteStage c).effects ++ [.write o.outFile final.2.text] ++
            (if !c.isDirectory || !c.pathExists then [.createDirectory "splitted_output"]
              else []) ++
            (splitBuffers ⟨0, 0, 0, 0, 0⟩ final.2.children).map splitWrite) := by
  have hidx : ∀ (i : Nat) (d : SyntaxNode), (topDeclarations children)[i]? = some d →
      (splitBuffers ⟨0, 0, 0, 0, 0⟩ children)[i]? =
        some (kindName d.kind ++ "_" ++
          toString (earlierOfKind (topDeclarations children) i d.kind), d.text) := by
    intro i d hd
    have := splitBuffers_index children [] ⟨0, 0, 0, 0, 0⟩
      (by intro k; cases k <;> rfl) i d hd
    simpa [earlierOfKind, topDeclarations] using this
  have hlen : (splitBuffers ⟨0, 0, 0, 0, 0⟩ children).length =
      (topDeclarations children).length :=
    splitBuffers_length children ⟨0, 0, 0, 0, 0⟩
  have hpair : ∀ a b : SyntaxNode, topDeclarations children = [a, b] →
      splitBuffers ⟨0, 0, 0, 0, 0⟩ children =
        [(kindName a.kind ++ "_" ++ toString (earlierOfKind [a, b] 0 a.kind), a.text),
         (kindName b.kind ++ "_" ++ toString (earlierOfKind [a, b] 1 b.kind),
           b.text)] := by
    intro a b hab
    rw [hab] at hidx hlen
    apply List.ext_getElem?
    intro i
    match i with
    | 0 => simpa using hidx 0 a rfl
    | 1 => simpa using hidx 1 b rfl
    | n + 2 =>
      have hl : (splitBuffers ⟨0, 0, 0, 0, 0⟩ children).length ≤ n + 2 := by
        rw [hlen]
        simp
      rw [List.getElem?_eq_none hl]
      simp
  refine ⟨hlen, ?_, ?_, ?_⟩
  · intro i d hd
    refine ⟨hidx i d hd, ?_⟩
    rw [List.getElem?_map, hidx i d hd]
    simp [splitWrite, String.append_assoc]
  · intro m p hm hp2
    constructor
    · intro hmp
      rw [hpair m p hmp]
      simp [splitWrite, earlierOfKind, kindName, hm, hp2, String.append_assoc]
      decide
    · intro hpm
      rw [hpair p m hpm]
      simp [splitWrite, earlierOfKind, kindName, hm, hp2, String.append_assoc]
      decide
  · intro hcli hsplit h0
    simp only [driverMain, hcli] at h0 ⊢
    cases hs : setupStage c o <;> simp [hs] at h0
    cases hp : parseStage c <;> simp [hp] at h0
    cases hc : compileStage c <;> simp [hc] at h0
    cases hrw : (rewriteStage c).result with
    | error e => simp [hrw] at h0
    | ok st =>
      simp only [hrw] at h0
      cases hpost : postprocess c st.2 with
      | error e => simp [hpost] at h0
      | ok post =>
        simp only [hpost] at h0
        cases hw : (writeStage c o post.1 post.2).result with
        | error e => simp [hw] at h0
        | ok u =>
          have hpost2 : post = (st.2.text, splitBuffers ⟨0, 0, 0, 0, 0⟩ st.2.children) := by
            unfold postprocess at hpost
            split at hpost
            · cases hpost
            · injection hpost with hpost
              exact hpost.symm
          subst hpost2
          have hw1 : (writeStage c o st.2.text
              (splitBuffers ⟨0, 0, 0, 0, 0⟩ st.2.children)).result = .ok u := hw
          have hw2 := writeStage_split_ok_effects c o st.2.text
            (splitBuffers ⟨0, 0, 0, 0, 0⟩ st.2.children) hsplit hw
          refine ⟨st, rfl, ?_⟩
          simp [hpost, hw1, hw2, List.append_assoc]

/-- Witness of C8: `demoRun` is a run in split mode that returns 0, on a tree with one
module and one package; after the output file and the directory it writes
`splitted_output/module_0.sv` and `splitted_output/package_0.sv` and nothing else. -/
theorem driverMain_split_naming_witness :
    demoRun.cliParse = .ok demoOptions ∧ demoOptions.cliSplit = true ∧
    (driverMain demoRun).ending = .returned 0 ∧
    (driverMain demoRun).effects.filter Effect.isOutput =
      [.write "out.sv"
        "module top; endmodule package p; endpackage /*U*/ /*P*/ /*G*/ /*T*/ /*U*/ /*P*/ /*A*/",
       .createDirectory "splitted_output",
       .write "splitted_output/module_0.sv" "module top; endmodule",
       .write "splitted_output/package_0.sv" "package p; endpackage"] ∧
    (splitBuffers ⟨0, 0, 0, 0, 0⟩ demoTree.children).map splitWrite =
      [.write "splitted_output/module_0.sv" "module top; endmodule",
       .write "splitted_output/package_0.sv" "package p; endpackage"] ∧
    ∃ final, (rewriteStage demoRun).result = .ok final ∧
      (driverMain demoRun).effects =
        (rewriteStage demoRun).effects ++ [.write demoOptions.outFile final.2.text] ++
          (if !demoRun.isDirectory || !demoRun.pathExists then
            [.createDirectory "splitted_output"] else []) ++
          (splitBuffers ⟨0, 0, 0, 0, 0⟩ final.2.children).map splitWrite :=
  ⟨rfl, rfl, by decide, by decide,
    ((driverMain_split_naming demoRun demoOptions demoTree.children).2.2.1
      ⟨.ModuleDeclaration, ⟨1, 0⟩, "module top; endmodule"⟩
      ⟨.PackageDeclaration, ⟨1, 22⟩, "package p; endpackage"⟩ rfl rfl).1 rfl,
    (driverMain_split_naming demoRun demoOptions demoTree.children).2.2.2 rfl rfl
      (by decide)⟩

end svase
